import Mathlib

/-!
Verification of the league rating / ranking / scheduling core of the
planet-wars-rts repository, against its natural-language specification.

The Python source under `src/app/src/main/python/league/` is shallowly
embedded here:

* `league_ratings.py` — the TrueSkill-like skill update
  (`_apply_trueskill_win` and its helpers `_norm_pdf`, `_norm_cdf`,
  `_v_exceeds`, `_w_exceeds`, `_v_exceeds_neg`, `_w_exceeds_neg`),
  the incremental cursor-based processor
  (`process_new_matches_and_update_ratings`) and the rebuild engine
  (`rebuild_ratings_from_matches`).  Python floats are modelled as real
  numbers; the SQLAlchemy match table is modelled as a `List MatchRow`
  and the per-league rating table as an association list; the SQL
  `ORDER BY` clauses are modelled by `List.insertionSort` with the
  corresponding key relation.
* `alpharank_league.py` — the AlphaRank profile chain
  (`build_profile_graph`), power iteration (`stationary_distribution`)
  and per-agent aggregation (`alpharank_scores`), embedded over `Fin n`
  with the sparse weight dictionaries replaced by the total weight
  function they represent (duplicate keys never occur, so the
  dictionary-merge in the source is the identity); also the match
  loader `load_league_data` with its skip conditions.
* `scheduler.py` — the staleness normalisation `_normalize_days`,
  with the elapsed wall-clock time since the last match passed in as a
  number of seconds (`none` for a never-played agent).
-/

noncomputable section

open Real

/-! ## Math helpers from `league_ratings.py` -/

/-- `_norm_pdf` from `league_ratings.py`: standard normal density. -/
def norm_pdf (x : ℝ) : ℝ := Real.exp (-0.5 * x * x) / Real.sqrt (2.0 * Real.pi)

/-- The error function used by Python's `math.erf`. -/
def erf (x : ℝ) : ℝ := 2.0 / Real.sqrt Real.pi * ∫ t in (0:ℝ)..x, Real.exp (-(t * t))

/-- `_norm_cdf` from `league_ratings.py`: `0.5 * (1 + erf(x / sqrt 2))`. -/
def norm_cdf (x : ℝ) : ℝ := 0.5 * (1.0 + erf (x / Real.sqrt 2.0))

/-- `_v_exceeds`: `pdf(t) / max(cdf(t), 1e-12)`. -/
def v_exceeds (t : ℝ) : ℝ := norm_pdf t / max (norm_cdf t) 1e-12

/-- `_w_exceeds`: `v(t) * (v(t) + t)`. -/
def w_exceeds (t : ℝ) : ℝ := v_exceeds t * (v_exceeds t + t)

/-- `_v_exceeds_neg`: `pdf(t) / max(min(1 - cdf(t), 1 - 1e-12), 1e-12)`. -/
def v_exceeds_neg (t : ℝ) : ℝ :=
  norm_pdf t / max (min (1.0 - norm_cdf t) (1.0 - 1e-12)) 1e-12

/-- `_w_exceeds_neg`: `v_neg(t) * (v_neg(t) - t)`. -/
def w_exceeds_neg (t : ℝ) : ℝ := v_exceeds_neg t * (v_exceeds_neg t - t)

/-! ## The skill update (`_apply_trueskill_win`) -/

/-- One `(mu, sigma)` rating row, as held in the `Rating` table. -/
structure RatingR where
  mu : ℝ
  sigma : ℝ

/-- The dynamics-inflated deviation `sqrt(sigma^2 + tau^2)`
(lines `s1 = math.sqrt(s1*s1 + tau*tau)` etc.). -/
def dynSigma (sigma tau : ℝ) : ℝ := Real.sqrt (sigma * sigma + tau * tau)

/-- The combined variance `c2 = 2*beta^2 + s1^2 + s2^2`. -/
def combinedC2 (s1 s2 beta : ℝ) : ℝ := 2 * beta * beta + s1 * s1 + s2 * s2

/-- The scaled skill gap `t = (mu1 - mu2) / c`. -/
def skillGapT (rWin rLos : RatingR) (beta tau : ℝ) : ℝ :=
  (rWin.mu - rLos.mu) /
    Real.sqrt (combinedC2 (dynSigma rWin.sigma tau) (dynSigma rLos.sigma tau) beta)

/-- The winner's post-update variance `s1p2 = s1^2 * (1 - (s1^2/c2) * w(t))`. -/
def winnerVar (rWin rLos : RatingR) (beta tau : ℝ) : ℝ :=
  let s1 := dynSigma rWin.sigma tau
  let s2 := dynSigma rLos.sigma tau
  let c2 := combinedC2 s1 s2 beta
  s1 * s1 * (1.0 - (s1 * s1 / c2) * w_exceeds (skillGapT rWin rLos beta tau))

/-- The loser's post-update variance `s2p2 = s2^2 * (1 - (s2^2/c2) * w_neg(t))`. -/
def loserVar (rWin rLos : RatingR) (beta tau : ℝ) : ℝ :=
  let s1 := dynSigma rWin.sigma tau
  let s2 := dynSigma rLos.sigma tau
  let c2 := combinedC2 s1 s2 beta
  s2 * s2 * (1.0 - (s2 * s2 / c2) * w_exceeds_neg (skillGapT rWin rLos beta tau))

/-- `_apply_trueskill_win` from `league_ratings.py`: one Bayesian 1v1 update.
Returns the pair (updated winner rating, updated loser rating). -/
def apply_trueskill_win (rWin rLos : RatingR) (beta tau : ℝ) : RatingR × RatingR :=
  let s1 := dynSigma rWin.sigma tau
  let s2 := dynSigma rLos.sigma tau
  let c := Real.sqrt (combinedC2 s1 s2 beta)
  let t := skillGapT rWin rLos beta tau
  (⟨rWin.mu + (s1 * s1 / c) * v_exceeds t,
    max (Real.sqrt (max (winnerVar rWin rLos beta tau) 1e-6)) 1e-3⟩,
   ⟨rLos.mu - (s2 * s2 / c) * v_exceeds_neg t,
    max (Real.sqrt (max (loserVar rWin rLos beta tau) 1e-6)) 1e-3⟩)

/-! ## `TS_DEFAULTS` from `league_ratings.py` -/

def TS_mu0 : ℝ := 25.0

def TS_sigma0 : ℝ := 25.0 / 3.0

def TS_beta : ℝ := 25.0 / 6.0

def TS_tau : ℝ := 25.0 / 3.0 / 100

/-! ## `_normalize_days` from `scheduler.py`

The elapsed time `now - last_played` is passed in as seconds
(`none` when the agent has never played). -/

def normalize_days (elapsed_seconds : Option ℝ) : ℝ :=
  match elapsed_seconds with
  | none => 1.0
  | some s => min (s / (24 * 3600 * 7)) 1.5

/-! ## The match log and league state -/

/-- One row of the match table (the fields read by the rating/ranking core).
Timestamps are modelled as integers (epoch seconds); `winner_id` is nullable
exactly as in the schema. -/
structure MatchRow where
  match_id : ℕ
  league_id : ℕ
  player1_id : ℕ
  player2_id : ℕ
  winner_id : Option ℕ
  started_at : Option ℤ
  finished_at : Option ℤ
  deriving DecidableEq

/-- The per-league settings dict, restricted to the keys the rating code
reads (`mu0`, `sigma0`, `beta`, `tau`, `draw_probability`,
`last_processed_match_id`). -/
structure LeagueSettingsR where
  mu0 : ℝ
  sigma0 : ℝ
  beta : ℝ
  tau : ℝ
  draw_probability : ℝ
  last_processed_match_id : ℕ

/-- The persisted state of one league: its settings (including the cursor)
and its rating rows, keyed by agent id. -/
structure LeagueStateR where
  settings : LeagueSettingsR
  ratings : List (ℕ × RatingR)

/-- Look up an agent's rating row. -/
def lookupRating : List (ℕ × RatingR) → ℕ → Option RatingR
  | [], _ => none
  | (a, r) :: rest, aid => if a = aid then some r else lookupRating rest aid

/-- `_get_or_create_rating`: add a `(mu0, sigma0)` row on first sight. -/
def ensure_rating (rs : List (ℕ × RatingR)) (aid : ℕ) (mu0 sigma0 : ℝ) :
    List (ℕ × RatingR) :=
  match lookupRating rs aid with
  | some _ => rs
  | none => rs ++ [(aid, ⟨mu0, sigma0⟩)]

/-- Overwrite an agent's rating row in place (append if absent). -/
def setRating : List (ℕ × RatingR) → ℕ → RatingR → List (ℕ × RatingR)
  | [], aid, r => [(aid, r)]
  | (a, x) :: rest, aid, r =>
    if a = aid then (a, r) :: rest else (a, x) :: setRating rest aid r

/-- The per-match loop body shared by
`process_new_matches_and_update_ratings` and `rebuild_ratings_from_matches`:
lazily create both rating rows, then apply `_apply_trueskill_win` to
(winner, loser).  The winner's row is written first and the loser's row
second, so a decisive self-play match ends up with the loser-side values,
exactly as the two in-place writes on one shared object behave in the
source. -/
def applyMatchRow (mu0 sigma0 beta tau : ℝ) (rs : List (ℕ × RatingR))
    (m : MatchRow) : List (ℕ × RatingR) :=
  let rs2 := ensure_rating (ensure_rating rs m.player1_id mu0 sigma0)
    m.player2_id mu0 sigma0
  let r1 := (lookupRating rs2 m.player1_id).getD ⟨mu0, sigma0⟩
  let r2 := (lookupRating rs2 m.player2_id).getD ⟨mu0, sigma0⟩
  if m.winner_id = some m.player1_id then
    let res := apply_trueskill_win r1 r2 beta tau
    setRating (setRating rs2 m.player1_id res.1) m.player2_id res.2
  else
    let res := apply_trueskill_win r2 r1 beta tau
    setRating (setRating rs2 m.player2_id res.1) m.player1_id res.2

/-- `m.winner_id is not None`: the match is decisive. -/
def decisiveB (m : MatchRow) : Bool := m.winner_id.isSome

/-- The `ORDER BY match_id ASC` key relation. -/
def matchIdLe (m1 m2 : MatchRow) : Prop := m1.match_id ≤ m2.match_id

instance : DecidableRel matchIdLe := fun _ _ => Nat.decLe _ _

instance : IsTotal MatchRow matchIdLe := ⟨fun _ _ => Nat.le_total _ _⟩

instance : IsTrans MatchRow matchIdLe := ⟨fun _ _ _ => Nat.le_trans⟩

/-- The `ORDER BY started_at ASC NULLS FIRST, match_id ASC` comparison used
by the `order="time"` rebuild. -/
def startedLeB (m1 m2 : MatchRow) : Bool :=
  match m1.started_at, m2.started_at with
  | none, none => decide (m1.match_id ≤ m2.match_id)
  | none, some _ => true
  | some _, none => false
  | some a, some b => decide (a < b) || (decide (a = b) && decide (m1.match_id ≤ m2.match_id))

def startedLe (m1 m2 : MatchRow) : Prop := startedLeB m1 m2 = true

instance : DecidableRel startedLe :=
  fun m1 m2 => inferInstanceAs (Decidable (startedLeB m1 m2 = true))

instance : IsTotal MatchRow startedLe := by
  constructor
  intro a b
  unfold startedLe startedLeB
  cases a.started_at <;> cases b.started_at <;> simp <;> omega

instance : IsTrans MatchRow startedLe := by
  constructor
  intro a b c
  unfold startedLe startedLeB
  cases a.started_at <;> cases b.started_at <;> cases c.started_at <;> simp <;> omega

/-- Modelled from the spec claim's words only (for comparison with the
implemented ordering): ascending finish timestamp, nulls first, ties broken
by ascending match id. -/
def finishLeB (m1 m2 : MatchRow) : Bool :=
  match m1.finished_at, m2.finished_at with
  | none, none => decide (m1.match_id ≤ m2.match_id)
  | none, some _ => true
  | some _, none => false
  | some a, some b => decide (a < b) || (decide (a = b) && decide (m1.match_id ≤ m2.match_id))

/-- The claimed finish-timestamp replay order, as a relation. -/
def finishLe (m1 m2 : MatchRow) : Prop := finishLeB m1 m2 = true

instance : DecidableRel finishLe :=
  fun m1 m2 => inferInstanceAs (Decidable (finishLeB m1 m2 = true))

/-- The query of `process_new_matches_and_update_ratings`: league matches
with id strictly above the cursor, ordered by match id ascending. -/
def queryNewMatches (db : List MatchRow) (lid : ℕ) (last_id : ℕ) : List MatchRow :=
  List.insertionSort matchIdLe
    (db.filter (fun m => m.league_id == lid && decide (last_id < m.match_id)))

/-- The `for m in to_apply` loop of both the processor and the rebuild:
fold the skill update over the matches, tracking `last_id = m.match_id`. -/
def processFold (mu0 sigma0 beta tau : ℝ) (init : List (ℕ × RatingR) × ℕ)
    (ms : List MatchRow) : List (ℕ × RatingR) × ℕ :=
  ms.foldl (fun acc m => (applyMatchRow mu0 sigma0 beta tau acc.1 m, m.match_id)) init

/-- `process_new_matches_and_update_ratings` from `league_ratings.py`.
Returns the updated league state and the number of matches processed. -/
def process_new_matches_and_update_ratings (db : List MatchRow) (lid : ℕ)
    (st : LeagueStateR) : LeagueStateR × ℕ :=
  let s := st.settings
  let to_apply := (queryNewMatches db lid s.last_processed_match_id).filter decisiveB
  if to_apply.isEmpty then (st, 0)
  else
    let res := processFold s.mu0 s.sigma0 s.beta s.tau
      (st.ratings, s.last_processed_match_id) to_apply
    (⟨{ s with last_processed_match_id := res.2 }, res.1⟩, to_apply.length)

/-- The decisive replay sequence of `rebuild_ratings_from_matches`:
league matches in the requested order, with the indecisive ones dropped. -/
def rebuildSeq (db : List MatchRow) (lid : ℕ) (order : String) : List MatchRow :=
  let leagueMatches := db.filter (fun m => m.league_id == lid)
  let q := if order = "time" then List.insertionSort startedLe leagueMatches
           else List.insertionSort matchIdLe leagueMatches
  q.filter decisiveB

/-- `rebuild_ratings_from_matches` from `league_ratings.py`.  Returns the
updated league state and the number of matches processed. -/
def rebuild_ratings_from_matches (db : List MatchRow) (lid : ℕ)
    (reset_ratings : Bool) (order : String) (st : LeagueStateR) : LeagueStateR × ℕ :=
  let s := st.settings
  let st1 : LeagueStateR :=
    if reset_ratings then ⟨{ s with last_processed_match_id := 0 }, []⟩ else st
  let ms := rebuildSeq db lid order
  if ms.isEmpty then
    (⟨{ st1.settings with last_processed_match_id := 0 }, st1.ratings⟩, 0)
  else
    let res := processFold s.mu0 s.sigma0 s.beta s.tau (st1.ratings, 0) ms
    (⟨{ st1.settings with last_processed_match_id := res.2 }, res.1⟩, ms.length)

/-! ## `load_league_data` from `alpharank_league.py` -/

/-- The accumulator of `load_league_data`: the set of participating agent ids
(insertion-ordered) and the win counters `counts[(winner, loser)].wins_ij`. -/
structure AlphaAcc where
  agents : List ℕ
  counts : List ((ℕ × ℕ) × ℕ)
  deriving DecidableEq

/-- `agent_ids.add`. -/
def addAgent (l : List ℕ) (a : ℕ) : List ℕ := if a ∈ l then l else l ++ [a]

/-- `counts[key].wins_ij += 1`. -/
def bumpCount : List ((ℕ × ℕ) × ℕ) → ℕ × ℕ → List ((ℕ × ℕ) × ℕ)
  | [], k => [(k, 1)]
  | (k0, c) :: rest, k =>
    if k0 = k then (k0, c + 1) :: rest else (k0, c) :: bumpCount rest k

/-- The loop body of `load_league_data`: skip a null winner or self-play,
otherwise record both participants and attribute the win. -/
def alphaLoadStep (acc : AlphaAcc) (m : MatchRow) : AlphaAcc :=
  match m.winner_id with
  | none => acc
  | some w =>
    if m.player1_id = m.player2_id then acc
    else
      let ag := addAgent (addAgent acc.agents m.player1_id) m.player2_id
      if w = m.player1_id then ⟨ag, bumpCount acc.counts (m.player1_id, m.player2_id)⟩
      else if w = m.player2_id then ⟨ag, bumpCount acc.counts (m.player2_id, m.player1_id)⟩
      else ⟨ag, acc.counts⟩

/-- `load_league_data` from `alpharank_league.py`, restricted to the data
the ranking consumes (agent ids and pair win counts). -/
def load_league_data (db : List MatchRow) (lid : ℕ) : AlphaAcc :=
  (db.filter (fun m => m.league_id == lid)).foldl alphaLoadStep ⟨[], []⟩

/-! ## Concrete sample data for the claim evaluations -/

/-- A league state with the `TS_DEFAULTS` settings, cursor `0`, no ratings. -/
def freshLeagueState : LeagueStateR :=
  ⟨⟨TS_mu0, TS_sigma0, TS_beta, TS_tau, 0, 0⟩, []⟩

/-- A single decisive self-play match (`player1 == player2`, winner set). -/
def selfPlayMatch : MatchRow := ⟨1, 1, 7, 7, some 7, none, none⟩

/-- A match that starts late but finishes early. -/
def lateStartEarlyFinish : MatchRow := ⟨1, 1, 1, 2, some 1, some 10, some 5⟩

/-- A match that starts early but finishes late. -/
def earlyStartLateFinish : MatchRow := ⟨2, 1, 1, 2, some 2, some 0, some 6⟩

/-- A two-match log on which start-time order and finish-time order differ. -/
def crossedTimesDb : List MatchRow := [lateStartEarlyFinish, earlyStartLateFinish]

/-- One decisive match plus one null-winner match, distinct ids. -/
def mixedDb : List MatchRow :=
  [⟨1, 1, 3, 4, some 4, none, none⟩, ⟨2, 1, 3, 4, none, none, none⟩]

/-- A one-match log with a positive match id. -/
def oneMatchDb : List MatchRow := [⟨1, 1, 3, 4, some 4, some 0, some 1⟩]

/-! ## AlphaRank (`alpharank_league.py`)

`build_profile_graph`, `stationary_distribution` and `alpharank_scores`,
over agents `Fin n` with a given win-rate matrix `p`.  The sparse
per-profile weight dictionaries of the source are represented by the total
edge-weight function they tabulate; the three outgoing-edge families
(self-loop, row deviations `(k, j)`, column deviations `(i, k)`) are
pairwise disjoint, so the `row[idx] = row.get(idx, 0) + ...` merge in the
source never combines two weights and the representation is exact. -/

/-- `safe_exp`: exponent capped at `50` to avoid overflow. -/
def safe_exp (x : ℝ) : ℝ := Real.exp (min 50.0 x)

/-- An ordered profile `(i, j)` with `i ≠ j`: one state of the AlphaRank
Markov chain. -/
abbrev Profile (n : ℕ) := {x : Fin n × Fin n // x.1 ≠ x.2}

open Classical in
/-- The `if weight > 0.0` guard of `build_profile_graph`: an edge with
non-positive weight is not appended, which is the same as weight `0`. -/
def keptWeight (w : ℝ) : ℝ := if 0 < w then w else 0

open Classical in
/-- One deviation weight: `mutation` if the payoff delta is non-positive,
else `exp(min(50, alpha * delta))`. -/
def devWeight (alpha mutation delta : ℝ) : ℝ :=
  if delta ≤ 0 then mutation else safe_exp (alpha * delta)

open Classical in
/-- The weight of the edge `src → tgt` in `build_profile_graph`: self-loop
`1`; row deviation `(i,j) → (k,j)` with `delta = p[k][j] - p[i][j]`; column
deviation `(i,j) → (i,k)` with `delta = p[k][i] - p[j][i]`; no edge
otherwise. -/
def entryWeight {n : ℕ} (p : Fin n → Fin n → ℝ) (alpha mutation : ℝ)
    (src tgt : Profile n) : ℝ :=
  if tgt = src then 1.0
  else if tgt.1.2 = src.1.2 then
    keptWeight (devWeight alpha mutation (p tgt.1.1 src.1.2 - p src.1.1 src.1.2))
  else if tgt.1.1 = src.1.1 then
    keptWeight (devWeight alpha mutation (p tgt.1.2 src.1.1 - p src.1.2 src.1.1))
  else 0

/-- The normalising total of a profile's outgoing weights. -/
def totalWeight {n : ℕ} (p : Fin n → Fin n → ℝ) (alpha mutation : ℝ)
    (src : Profile n) : ℝ :=
  ∑ tgt, entryWeight p alpha mutation src tgt

/-- The row-stochastic transition probability of the profile chain. -/
def transProb {n : ℕ} (p : Fin n → Fin n → ℝ) (alpha mutation : ℝ)
    (src tgt : Profile n) : ℝ :=
  entryWeight p alpha mutation src tgt / totalWeight p alpha mutation src

/-- One synchronous step of the power iteration:
`nxt[q] = Σ_s pi[s] * T[s][q]`. -/
def powerIterStep {n : ℕ} (T : Profile n → Profile n → ℝ) (piv : Profile n → ℝ) :
    Profile n → ℝ :=
  fun q => ∑ s, piv s * T s q

open Classical in
/-- The loop of `stationary_distribution`: step, renormalise (falling back
to uniform when the total mass is `0`), stop when the L1 change drops below
`tol` or the iteration budget runs out. -/
def powerIter {n : ℕ} (T : Profile n → Profile n → ℝ) (tol : ℝ) :
    ℕ → (Profile n → ℝ) → Profile n → ℝ
  | 0, piv => piv
  | fuel + 1, piv =>
    let nxt := powerIterStep T piv
    let s := ∑ q, nxt q
    let nxt2 := if s = 0 then (fun _ => 1 / (Fintype.card (Profile n) : ℝ))
      else (fun q => nxt q * (1 / s))
    if (∑ q, |piv q - nxt2 q|) < tol then nxt2 else powerIter T tol fuel nxt2

/-- `stationary_distribution` with the source defaults `tol = 1e-12`,
`max_iter = 20000`, uniform start. -/
def stationary_distribution {n : ℕ} (T : Profile n → Profile n → ℝ) :
    Profile n → ℝ :=
  powerIter T 1e-12 20000 (fun _ => 1 / (Fintype.card (Profile n) : ℝ))

/-- The pre-normalisation AlphaRank mass of one agent (`mass[i]` in
`alpharank_scores`): half the stationary mass of every profile containing
it, as row or as column player. -/
def agentMass (n : ℕ) (p : Fin n → Fin n → ℝ) (alpha mutation : ℝ) (a : Fin n) : ℝ :=
  ∑ pr : Profile n,
    stationary_distribution (transProb p alpha mutation) pr * 0.5
      * ((if pr.1.1 = a then 1 else 0) + (if pr.1.2 = a then 1 else 0))

open Classical in
/-- `alpharank_scores`: aggregate half of each profile's stationary mass to
each of its two agents, then renormalise if the total is positive. -/
def alpharank_scores (n : ℕ) (p : Fin n → Fin n → ℝ) (alpha mutation : ℝ) :
    Fin n → ℝ :=
  let s := ∑ b, agentMass n p alpha mutation b
  if 0 < s then (fun a => agentMass n p alpha mutation a / s)
  else (fun a => agentMass n p alpha mutation a)

end

/-! ## Basic positivity lemmas about the skill update -/

theorem norm_pdf_pos (x : ℝ) : 0 < norm_pdf x := by
  unfold norm_pdf
  apply div_pos (Real.exp_pos _)
  rw [Real.sqrt_pos]
  nlinarith [Real.pi_pos]

theorem v_exceeds_pos (t : ℝ) : 0 < v_exceeds t := by
  unfold v_exceeds
  apply div_pos (norm_pdf_pos t)
  calc (0:ℝ) < 1e-12 := by norm_num
  _ ≤ max (norm_cdf t) 1e-12 := le_max_right _ _

theorem v_exceeds_neg_pos (t : ℝ) : 0 < v_exceeds_neg t := by
  unfold v_exceeds_neg
  apply div_pos (norm_pdf_pos t)
  calc (0:ℝ) < 1e-12 := by norm_num
  _ ≤ max (min (1.0 - norm_cdf t) (1.0 - 1e-12)) 1e-12 := le_max_right _ _

theorem dynSigma_mul_self (sigma tau : ℝ) :
    dynSigma sigma tau * dynSigma sigma tau = sigma * sigma + tau * tau := by
  unfold dynSigma
  exact Real.mul_self_sqrt (by nlinarith [mul_self_nonneg sigma, mul_self_nonneg tau])

theorem dynSigma_sq_pos {sigma : ℝ} (tau : ℝ) (h : 0 < sigma) :
    0 < dynSigma sigma tau * dynSigma sigma tau := by
  rw [dynSigma_mul_self]
  nlinarith

theorem combinedC2_pos {beta : ℝ} (s1 s2 : ℝ) (hb : 0 < beta) :
    0 < combinedC2 s1 s2 beta := by
  unfold combinedC2
  nlinarith [mul_self_nonneg s1, mul_self_nonneg s2]

theorem sqrt_combinedC2_pos {beta : ℝ} (s1 s2 : ℝ) (hb : 0 < beta) :
    0 < Real.sqrt (combinedC2 s1 s2 beta) :=
  Real.sqrt_pos.mpr (combinedC2_pos s1 s2 hb)

/-! ## Claim theorems about the skill update -/

/-- C3: for every finite winner and loser ratings with positive sigma and
every `beta > 0`, `tau ≥ 0`, one application of `_apply_trueskill_win`
strictly increases the winner's `mu` and strictly decreases the loser's `mu`. -/
theorem C3_monotonic_update (rWin rLos : RatingR) (beta tau : ℝ)
    (hb : 0 < beta) (hw : 0 < rWin.sigma) (hl : 0 < rLos.sigma) (ht : 0 ≤ tau) :
    rWin.mu < (apply_trueskill_win rWin rLos beta tau).1.mu ∧
    (apply_trueskill_win rWin rLos beta tau).2.mu < rLos.mu := by
  have hc : 0 < Real.sqrt (combinedC2 (dynSigma rWin.sigma tau)
      (dynSigma rLos.sigma tau) beta) := sqrt_combinedC2_pos _ _ hb
  have hsw : 0 < dynSigma rWin.sigma tau * dynSigma rWin.sigma tau :=
    dynSigma_sq_pos tau hw
  have hsl : 0 < dynSigma rLos.sigma tau * dynSigma rLos.sigma tau :=
    dynSigma_sq_pos tau hl
  have hv := v_exceeds_pos (skillGapT rWin rLos beta tau)
  have hvn := v_exceeds_neg_pos (skillGapT rWin rLos beta tau)
  simp only [apply_trueskill_win]
  constructor
  · nlinarith [mul_pos (div_pos hsw hc) hv]
  · nlinarith [mul_pos (div_pos hsl hc) hvn]

/-- Witness for C3 at the concrete input `rWin = rLos = (0, 1)`, `beta = 1`,
`tau = 0`. -/
theorem C3_monotonic_update_witness :
    ((0:ℝ) < 1 ∧ 0 < (RatingR.mk 0 1).sigma ∧ (0:ℝ) ≤ 0) ∧
    ((RatingR.mk 0 1).mu < (apply_trueskill_win ⟨0, 1⟩ ⟨0, 1⟩ 1 0).1.mu ∧
      (apply_trueskill_win ⟨0, 1⟩ ⟨0, 1⟩ 1 0).2.mu < (RatingR.mk 0 1).mu) :=
  ⟨⟨by norm_num, by norm_num, le_refl 0⟩,
   C3_monotonic_update ⟨0, 1⟩ ⟨0, 1⟩ 1 0 (by norm_num) (by norm_num) (by norm_num)
     (le_refl 0)⟩

/-- C8: after every application of `_apply_trueskill_win`, for any inputs
whatsoever, both resulting sigmas are at least the floor `1e-3` (the variance
is floored at `1e-6` before the square root and the result clamped at `1e-3`),
so `sigma` stays in `[1e-3, ∞)` across any sequence of updates. -/
theorem C8_sigma_floor (rWin rLos : RatingR) (beta tau : ℝ) :
    1e-3 ≤ (apply_trueskill_win rWin rLos beta tau).1.sigma ∧
    1e-3 ≤ (apply_trueskill_win rWin rLos beta tau).2.sigma := by
  simp only [apply_trueskill_win]
  exact ⟨le_max_right _ _, le_max_right _ _⟩

/-- C10: under `beta > 0` and positive sigmas, every denominator inside
`_apply_trueskill_win` is strictly positive, the Gaussian-ratio denominators
are clamped below by `1e-12`, each variance fed to a square root is floored
at `1e-6`, and the dynamics-inflation square-root arguments are nonnegative:
the update is total, with no division by zero and no square root of a
negative number. -/
theorem C10_no_division_by_zero (rWin rLos : RatingR) (beta tau : ℝ)
    (hb : 0 < beta) (hw : 0 < rWin.sigma) (hl : 0 < rLos.sigma) :
    0 < combinedC2 (dynSigma rWin.sigma tau) (dynSigma rLos.sigma tau) beta ∧
    0 < Real.sqrt (combinedC2 (dynSigma rWin.sigma tau) (dynSigma rLos.sigma tau) beta) ∧
    (1e-12:ℝ) ≤ max (norm_cdf (skillGapT rWin rLos beta tau)) 1e-12 ∧
    (1e-12:ℝ) ≤ max (min (1.0 - norm_cdf (skillGapT rWin rLos beta tau)) (1.0 - 1e-12)) 1e-12 ∧
    (1e-6:ℝ) ≤ max (winnerVar rWin rLos beta tau) 1e-6 ∧
    (1e-6:ℝ) ≤ max (loserVar rWin rLos beta tau) 1e-6 ∧
    0 ≤ rWin.sigma * rWin.sigma + tau * tau ∧
    0 ≤ rLos.sigma * rLos.sigma + tau * tau :=
  ⟨combinedC2_pos _ _ hb, sqrt_combinedC2_pos _ _ hb, le_max_right _ _,
   le_max_right _ _, le_max_right _ _, le_max_right _ _,
   by nlinarith [mul_self_nonneg rWin.sigma, mul_self_nonneg tau],
   by nlinarith [mul_self_nonneg rLos.sigma, mul_self_nonneg tau]⟩

/-- Witness for C10 at `rWin = rLos = (0, 1)`, `beta = 1`, `tau = 0`. -/
theorem C10_no_division_by_zero_witness :
    ((0:ℝ) < 1 ∧ 0 < (RatingR.mk 0 1).sigma) ∧
    0 < Real.sqrt (combinedC2 (dynSigma (RatingR.mk 0 1).sigma 0)
      (dynSigma (RatingR.mk 0 1).sigma 0) 1) :=
  ⟨⟨by norm_num, by norm_num⟩,
   (C10_no_division_by_zero ⟨0, 1⟩ ⟨0, 1⟩ 1 0 (by norm_num) (by norm_num)
     (by norm_num)).2.1⟩

/-! ## Lemmas about the processor's fold and query -/

theorem processFold_fst (mu0 sigma0 beta tau : ℝ) (ms : List MatchRow) :
    ∀ (rs : List (ℕ × RatingR)) (a : ℕ),
      (processFold mu0 sigma0 beta tau (rs, a) ms).1
        = ms.foldl (applyMatchRow mu0 sigma0 beta tau) rs := by
  induction ms with
  | nil => intro rs a; rfl
  | cons m t ih =>
    intro rs a
    simp only [processFold, List.foldl_cons] at *
    exact ih _ _

theorem processFold_snd (mu0 sigma0 beta tau : ℝ) (ms : List MatchRow) :
    ∀ (rs : List (ℕ × RatingR)) (a : ℕ),
      (processFold mu0 sigma0 beta tau (rs, a) ms).2
        = ms.foldl (fun _ m => m.match_id) a := by
  induction ms with
  | nil => intro rs a; rfl
  | cons m t ih =>
    intro rs a
    simp only [processFold, List.foldl_cons] at *
    exact ih _ _

theorem foldl_lastId_eq_getLast :
    ∀ (ms : List MatchRow) (a : ℕ) (h : ms ≠ []),
      ms.foldl (fun _ m => m.match_id) a = (ms.getLast h).match_id := by
  intro ms
  induction ms with
  | nil => intro a h; exact absurd rfl h
  | cons m t ih =>
    intro a h
    cases t with
    | nil => rfl
    | cons m2 t2 =>
      rw [List.foldl_cons, ih _ (by simp)]
      simp [List.getLast_cons]

theorem sorted_le_getLast :
    ∀ (ms : List MatchRow), List.Sorted matchIdLe ms → ∀ (hne : ms ≠ []),
      ∀ m ∈ ms, m.match_id ≤ (ms.getLast hne).match_id := by
  intro ms
  induction ms with
  | nil => intro _ hne; exact absurd rfl hne
  | cons m0 t ih =>
    intro h hne m hm
    rw [List.sorted_cons] at h
    cases t with
    | nil =>
      simp only [List.mem_singleton] at hm
      subst hm
      simp [List.getLast]
    | cons m1 t1 =>
      rw [List.getLast_cons (by simp)]
      rcases List.mem_cons.mp hm with h1 | h2
      · subst h1
        exact h.1 _ (List.getLast_mem _)
      · exact ih h.2 (by simp) m h2

theorem mem_queryNewMatches {m : MatchRow} {db : List MatchRow} {lid last : ℕ} :
    m ∈ queryNewMatches db lid last ↔
      m ∈ db ∧ m.league_id = lid ∧ last < m.match_id := by
  unfold queryNewMatches
  rw [(List.perm_insertionSort matchIdLe _).mem_iff]
  simp [List.mem_filter, and_assoc]

theorem sorted_queryNewMatches (db : List MatchRow) (lid last : ℕ) :
    List.Sorted matchIdLe (queryNewMatches db lid last) :=
  List.sorted_insertionSort matchIdLe _

theorem process_cursor_maxed (db : List MatchRow) (lid : ℕ) (st : LeagueStateR)
    (h : ∀ m ∈ db, m.league_id = lid → decisiveB m →
      m.match_id ≤ st.settings.last_processed_match_id) :
    process_new_matches_and_update_ratings db lid st = (st, 0) := by
  have hnil : (queryNewMatches db lid st.settings.last_processed_match_id).filter decisiveB
      = [] := by
    rw [List.filter_eq_nil_iff]
    intro m hm hdec
    rw [mem_queryNewMatches] at hm
    have := h m hm.1 hm.2.1 hdec
    omega
  simp only [process_new_matches_and_update_ratings, hnil, List.isEmpty_nil, if_true]

theorem process_cursor_covers (db : List MatchRow) (lid : ℕ) (st : LeagueStateR) :
    ∀ m ∈ db, m.league_id = lid → decisiveB m →
      m.match_id ≤
      (process_new_matches_and_update_ratings db lid st).1.settings.last_processed_match_id := by
  intro m hm hl hd
  by_cases hQ : (queryNewMatches db lid st.settings.last_processed_match_id).filter decisiveB = []
  · have h1 : process_new_matches_and_update_ratings db lid st = (st, 0) := by
      simp only [process_new_matches_and_update_ratings, hQ, List.isEmpty_nil, if_true]
    rw [h1]
    by_contra hgt
    push_neg at hgt
    have hmem : m ∈ (queryNewMatches db lid st.settings.last_processed_match_id).filter
        decisiveB :=
      List.mem_filter.mpr ⟨mem_queryNewMatches.mpr ⟨hm, hl, hgt⟩, hd⟩
    rw [hQ] at hmem
    exact absurd hmem (List.not_mem_nil m)
  · have hsorted : List.Sorted matchIdLe
        ((queryNewMatches db lid st.settings.last_processed_match_id).filter decisiveB) :=
      (sorted_queryNewMatches db lid _).filter decisiveB
    have hcursor : (process_new_matches_and_update_ratings db lid st).1.settings.last_processed_match_id
        = (((queryNewMatches db lid st.settings.last_processed_match_id).filter
            decisiveB).getLast hQ).match_id := by
      simp only [process_new_matches_and_update_ratings]
      rw [if_neg (by simpa [List.isEmpty_iff] using hQ)]
      simp only
      rw [processFold_snd, foldl_lastId_eq_getLast _ _ hQ]
    have hlastmem := List.getLast_mem hQ
    have hlastgt : st.settings.last_processed_match_id
        < (((queryNewMatches db lid st.settings.last_processed_match_id).filter
            decisiveB).getLast hQ).match_id :=
      (mem_queryNewMatches.mp (List.mem_filter.mp hlastmem).1).2.2
    rw [hcursor]
    by_cases hid : st.settings.last_processed_match_id < m.match_id
    · exact sorted_le_getLast _ hsorted hQ m
        (List.mem_filter.mpr ⟨mem_queryNewMatches.mpr ⟨hm, hl, hid⟩, hd⟩)
    · omega

theorem process_stable (db : List MatchRow) (lid : ℕ) (st : LeagueStateR) :
    process_new_matches_and_update_ratings db lid
        (process_new_matches_and_update_ratings db lid st).1
      = ((process_new_matches_and_update_ratings db lid st).1, 0) :=
  process_cursor_maxed db lid _ (process_cursor_covers db lid st)

/-- C7: calling the incremental processor again right after a call, with no
matches appended in between, processes 0 matches and returns the league
state (all rating rows and the cursor) unchanged. -/
theorem C7_resumability (db : List MatchRow) (lid : ℕ) (st : LeagueStateR) :
    process_new_matches_and_update_ratings db lid
        (process_new_matches_and_update_ratings db lid st).1
      = ((process_new_matches_and_update_ratings db lid st).1, 0) :=
  process_stable db lid st

theorem queryNewMatches_zero (db : List MatchRow) (lid : ℕ)
    (hpos : ∀ m ∈ db, 1 ≤ m.match_id) :
    queryNewMatches db lid 0
      = List.insertionSort matchIdLe (db.filter (fun m => m.league_id == lid)) := by
  unfold queryNewMatches
  congr 1
  apply List.filter_congr
  intro m hm
  have h : 0 < m.match_id := hpos m hm
  simp [h]

theorem process_zero_eq_rebuild_id (db : List MatchRow) (lid : ℕ) (st : LeagueStateR)
    (hpos : ∀ m ∈ db, 1 ≤ m.match_id) :
    process_new_matches_and_update_ratings db lid
        ⟨{ st.settings with last_processed_match_id := 0 }, []⟩
      = rebuild_ratings_from_matches db lid true "id" st := by
  have hq := queryNewMatches_zero db lid hpos
  simp only [process_new_matches_and_update_ratings, rebuild_ratings_from_matches,
    rebuildSeq, hq]
  rw [if_neg (show ¬ (("id" : String) = "time") by decide)]
  by_cases hE : ((List.insertionSort matchIdLe
      (db.filter (fun m => m.league_id == lid))).filter decisiveB).isEmpty
  · simp [hE]
  · simp [hE]

/-- C1: for every match log with positive match ids (ids are
autoincrement-assigned, starting at 1), a rebuild with `order="id"` and
`reset=true` produces exactly the ratings obtained by repeatedly running the
incremental processor, starting from an empty cursor
(`last_processed_match_id = 0`) and an empty rating table, over the same
match log (exact equality in the real-number model, hence within any
floating-point tolerance). -/
theorem C1_rebuild_incremental_equivalence (db : List MatchRow) (lid : ℕ)
    (st : LeagueStateR) (k : ℕ) (hpos : ∀ m ∈ db, 1 ≤ m.match_id) :
    ((fun s => (process_new_matches_and_update_ratings db lid s).1)^[k + 1]
        ⟨{ st.settings with last_processed_match_id := 0 }, []⟩).ratings
      = ((rebuild_ratings_from_matches db lid true "id" st).1).ratings := by
  have h1 : (process_new_matches_and_update_ratings db lid
      ⟨{ st.settings with last_processed_match_id := 0 }, []⟩).1
      = (rebuild_ratings_from_matches db lid true "id" st).1 := by
    rw [process_zero_eq_rebuild_id db lid st hpos]
  have hB : (process_new_matches_and_update_ratings db lid
      (rebuild_ratings_from_matches db lid true "id" st).1).1
      = (rebuild_ratings_from_matches db lid true "id" st).1 := by
    rw [← process_zero_eq_rebuild_id db lid st hpos, process_stable]
  have hfix : ∀ j, (fun s => (process_new_matches_and_update_ratings db lid s).1)^[j]
      (rebuild_ratings_from_matches db lid true "id" st).1
      = (rebuild_ratings_from_matches db lid true "id" st).1 := by
    intro j
    induction j with
    | zero => rfl
    | succ j ihj =>
      rw [Function.iterate_succ_apply, hB, ihj]
  rw [Function.iterate_succ_apply, h1, hfix k]

/-- Witness for C1: one decisive match, default league settings, `k = 0`. -/
theorem C1_rebuild_incremental_equivalence_witness :
    (∀ m ∈ oneMatchDb, 1 ≤ m.match_id) ∧
    ((fun s => (process_new_matches_and_update_ratings oneMatchDb 1 s).1)^[1]
        ⟨{ freshLeagueState.settings with last_processed_match_id := 0 }, []⟩).ratings
      = ((rebuild_ratings_from_matches oneMatchDb 1 true "id" freshLeagueState).1).ratings :=
  ⟨by decide, C1_rebuild_incremental_equivalence oneMatchDb 1 freshLeagueState 0 (by decide)⟩

/-! ## Skip semantics of the processor and the ranking loader (C4) -/

theorem eq_of_sorted_perm_nodup_ids :
    ∀ {l₁ l₂ : List MatchRow}, l₁.Perm l₂ → List.Sorted matchIdLe l₁ →
      List.Sorted matchIdLe l₂ → (l₁.map MatchRow.match_id).Nodup → l₁ = l₂ := by
  intro l₁
  induction l₁ with
  | nil =>
    intro l₂ hp _ _ _
    exact (List.Perm.eq_nil hp.symm).symm
  | cons a t ih =>
    intro l₂ hp hs₁ hs₂ hnd
    cases l₂ with
    | nil => exact absurd hp.eq_nil (by simp)
    | cons b t₂ =>
      have hab : a = b := by
        by_contra hne
        have hbmem : b ∈ a :: t := hp.mem_iff.mpr (List.mem_cons_self b t₂)
        have hamem : a ∈ b :: t₂ := hp.mem_iff.mp (List.mem_cons_self a t)
        have hb_t : b ∈ t := by
          rcases List.mem_cons.mp hbmem with h | h
          · exact absurd h.symm hne
          · exact h
        have ha_t2 : a ∈ t₂ := by
          rcases List.mem_cons.mp hamem with h | h
          · exact absurd h hne
          · exact h
        have h1 : a.match_id ≤ b.match_id := (List.sorted_cons.mp hs₁).1 b hb_t
        have h2 : b.match_id ≤ a.match_id := (List.sorted_cons.mp hs₂).1 a ha_t2
        have hmm : a.match_id ∈ t.map MatchRow.match_id :=
          List.mem_map.mpr ⟨b, hb_t, le_antisymm h2 h1⟩
        rw [List.map_cons, List.nodup_cons] at hnd
        exact hnd.1 hmm
      subst hab
      have hnd' : (t.map MatchRow.match_id).Nodup := by
        rw [List.map_cons, List.nodup_cons] at hnd
        exact hnd.2
      rw [ih hp.cons_inv (List.sorted_cons.mp hs₁).2 (List.sorted_cons.mp hs₂).2 hnd']

theorem toApply_filter_decisive (db : List MatchRow) (lid L : ℕ)
    (hids : (db.map MatchRow.match_id).Nodup) :
    (queryNewMatches (db.filter decisiveB) lid L).filter decisiveB
      = (queryNewMatches db lid L).filter decisiveB := by
  have h2 : ((db.filter decisiveB).filter
        (fun m => m.league_id == lid && decide (L < m.match_id))).filter decisiveB
      = (db.filter (fun m => m.league_id == lid && decide (L < m.match_id))).filter
          decisiveB := by
    rw [List.filter_filter, List.filter_filter, List.filter_filter]
    apply List.filter_congr
    intro m _
    cases decisiveB m <;>
      cases (m.league_id == lid && decide (L < m.match_id)) <;> rfl
  have hpermL : ((queryNewMatches (db.filter decisiveB) lid L).filter decisiveB).Perm
      ((db.filter (fun m => m.league_id == lid && decide (L < m.match_id))).filter
        decisiveB) := by
    have h1 := (List.perm_insertionSort matchIdLe
      ((db.filter decisiveB).filter
        (fun m => m.league_id == lid && decide (L < m.match_id)))).filter decisiveB
    rw [h2] at h1
    exact h1
  have hpermR : ((queryNewMatches db lid L).filter decisiveB).Perm
      ((db.filter (fun m => m.league_id == lid && decide (L < m.match_id))).filter
        decisiveB) :=
    (List.perm_insertionSort matchIdLe _).filter decisiveB
  have hsub : ((db.filter (fun m => m.league_id == lid && decide (L < m.match_id))).filter
      decisiveB).Sublist db :=
    (List.filter_sublist _).trans (List.filter_sublist _)
  have hndY : (((db.filter (fun m => m.league_id == lid && decide (L < m.match_id))).filter
      decisiveB).map MatchRow.match_id).Nodup :=
    (hsub.map MatchRow.match_id).nodup hids
  exact eq_of_sorted_perm_nodup_ids (hpermL.trans hpermR.symm)
    ((sorted_queryNewMatches _ _ _).filter _) ((sorted_queryNewMatches _ _ _).filter _)
    ((List.Perm.nodup_iff (hpermL.map MatchRow.match_id)).mpr hndY)

theorem process_filter_decisive (db : List MatchRow) (lid : ℕ) (st : LeagueStateR)
    (hids : (db.map MatchRow.match_id).Nodup) :
    process_new_matches_and_update_ratings (db.filter decisiveB) lid st
      = process_new_matches_and_update_ratings db lid st := by
  simp only [process_new_matches_and_update_ratings]
  rw [toApply_filter_decisive db lid _ hids]

theorem alphaLoadStep_skip (acc : AlphaAcc) (m : MatchRow)
    (h : (decisiveB m && (m.player1_id != m.player2_id)) = false) :
    alphaLoadStep acc m = acc := by
  unfold alphaLoadStep
  cases hw : m.winner_id with
  | none => rfl
  | some w =>
    have hp : m.player1_id = m.player2_id := by
      simp [decisiveB, hw, bne_eq_false_iff_eq] at h
      exact h
    simp [hp]

theorem foldl_alphaLoadStep_filter :
    ∀ (l : List MatchRow) (acc : AlphaAcc),
      (l.filter (fun m => decisiveB m && (m.player1_id != m.player2_id))).foldl
          alphaLoadStep acc
        = l.foldl alphaLoadStep acc := by
  intro l
  induction l with
  | nil => intro acc; rfl
  | cons m t ih =>
    intro acc
    by_cases hk : (decisiveB m && (m.player1_id != m.player2_id)) = true
    · simp only [List.filter_cons, hk, if_true, List.foldl_cons]
      exact ih _
    · have hk' : (decisiveB m && (m.player1_id != m.player2_id)) = false := by
        revert hk
        cases (decisiveB m && (m.player1_id != m.player2_id)) <;> simp
      simp only [List.filter_cons, hk', List.foldl_cons, Bool.false_eq_true, if_false,
        alphaLoadStep_skip acc m hk']
      exact ih _

theorem load_league_data_filter (db : List MatchRow) (lid : ℕ) :
    load_league_data
        (db.filter (fun m => decisiveB m && (m.player1_id != m.player2_id))) lid
      = load_league_data db lid := by
  unfold load_league_data
  have hc : (db.filter (fun m => decisiveB m && (m.player1_id != m.player2_id))).filter
        (fun m => m.league_id == lid)
      = (db.filter (fun m => m.league_id == lid)).filter
          (fun m => decisiveB m && (m.player1_id != m.player2_id)) := by
    rw [List.filter_filter, List.filter_filter]
    apply List.filter_congr
    intro m _
    exact Bool.and_comm _ _
  rw [hc, foldl_alphaLoadStep_filter]

/-- C4 counterexample: a decisive self-play match (`player1 == player2 = 7`,
winner `7`) is NOT skipped by the incremental rating processor: it is counted
(processed count `1`, not `0`), it creates a rating row for agent `7`, and it
advances the cursor — while the AlphaRank loader does skip it. -/
theorem C4_counterexample :
    (process_new_matches_and_update_ratings [selfPlayMatch] 1 freshLeagueState).2 = 1 ∧
    (lookupRating (process_new_matches_and_update_ratings [selfPlayMatch] 1
        freshLeagueState).1.ratings 7).isSome = true ∧
    (process_new_matches_and_update_ratings [selfPlayMatch] 1
        freshLeagueState).1.settings.last_processed_match_id = 1 ∧
    load_league_data [selfPlayMatch] 1 = ⟨[], []⟩ :=
  ⟨rfl, rfl, rfl, rfl⟩

/-- C4 amended: matches with a null winner are skipped by the incremental
rating processor (removing them from the log changes nothing, given the
database invariant that match ids are unique), and the AlphaRank loader
skips both null-winner matches and self-play matches; but the rating
processor does not skip decisive self-play matches (see the
counterexample). -/
theorem C4_skip_semantics :
    (∀ (db : List MatchRow) (lid : ℕ) (st : LeagueStateR),
        (db.map MatchRow.match_id).Nodup →
        process_new_matches_and_update_ratings (db.filter decisiveB) lid st
          = process_new_matches_and_update_ratings db lid st) ∧
    (∀ (db : List MatchRow) (lid : ℕ),
        load_league_data
            (db.filter (fun m => decisiveB m && (m.player1_id != m.player2_id))) lid
          = load_league_data db lid) :=
  ⟨process_filter_decisive, load_league_data_filter⟩

/-- Witness for C4 (amended): a log with one decisive and one null-winner
match, ids distinct. -/
theorem C4_skip_semantics_witness :
    ((mixedDb.map MatchRow.match_id).Nodup) ∧
    process_new_matches_and_update_ratings (mixedDb.filter decisiveB) 1 freshLeagueState
      = process_new_matches_and_update_ratings mixedDb 1 freshLeagueState :=
  ⟨by decide, C4_skip_semantics.1 mixedDb 1 freshLeagueState (by decide)⟩

/-- C5 counterexample: on a log where start-time order and finish-time order
disagree, the `order="time"` rebuild replays `earlyStartLateFinish`
(started `0`, finished `6`) before `lateStartEarlyFinish` (started `10`,
finished `5`): the replay sequence is ordered by start timestamp and is NOT
in ascending finish-timestamp order. -/
theorem C5_counterexample :
    rebuildSeq crossedTimesDb 1 "time" = [earlyStartLateFinish, lateStartEarlyFinish] ∧
    ¬ finishLe earlyStartLateFinish lateStartEarlyFinish := by
  constructor
  · decide
  · decide

/-- C5 amended: the `order="time"` rebuild replays exactly the league's
decisive matches, in ascending order of START timestamp (not finish
timestamp), with null timestamps first and ties broken by ascending match
id. -/
theorem C5_time_order_is_started_at (db : List MatchRow) (lid : ℕ) :
    List.Sorted startedLe (rebuildSeq db lid "time") ∧
    (rebuildSeq db lid "time").Perm
      ((db.filter (fun m => m.league_id == lid)).filter decisiveB) := by
  constructor
  · simp only [rebuildSeq]
    rw [if_pos trivial]
    exact (List.sorted_insertionSort startedLe _).filter decisiveB
  · simp only [rebuildSeq]
    rw [if_pos trivial]
    exact (List.perm_insertionSort startedLe _).filter decisiveB

/-- C9: the code bug in `_normalize_days`.  A never-played agent gets
staleness `1.0`, while an agent that last played two weeks ago gets the cap
`1.5 > 1.0`; so a never-played agent does NOT receive the maximum of the
`[0, 1.5]` staleness scale, contradicting both the spec and the source's
own comment ("maximally stale if never played"). -/
theorem C9_staleness_bug :
    normalize_days none = 1.0 ∧
    normalize_days (some (14 * 24 * 3600)) = 1.5 ∧
    normalize_days none < normalize_days (some (14 * 24 * 3600)) := by
  have h2 : normalize_days (some (14 * 24 * 3600)) = 1.5 := by
    show min ((14 * 24 * 3600 : ℝ) / (24 * 3600 * 7)) 1.5 = 1.5
    rw [min_eq_right]
    norm_num
  refine ⟨rfl, h2, ?_⟩
  rw [h2]
  show (1.0 : ℝ) < 1.5
  norm_num

/-! ## The worked example (C2): evaluation of the update at `t = 0` -/

theorem erf_zero : erf 0 = 0 := by
  unfold erf
  rw [intervalIntegral.integral_same]
  ring

theorem norm_cdf_zero : norm_cdf 0 = 1 / 2 := by
  unfold norm_cdf
  rw [zero_div, erf_zero]
  norm_num

theorem norm_pdf_zero : norm_pdf 0 = 1 / Real.sqrt (2 * Real.pi) := by
  unfold norm_pdf
  norm_num

theorem v_exceeds_zero : v_exceeds 0 = 2 / Real.sqrt (2 * Real.pi) := by
  unfold v_exceeds
  rw [norm_cdf_zero, norm_pdf_zero, max_eq_left (by norm_num : (1e-12:ℝ) ≤ 1 / 2)]
  ring

theorem v_exceeds_neg_zero : v_exceeds_neg 0 = 2 / Real.sqrt (2 * Real.pi) := by
  unfold v_exceeds_neg
  rw [norm_cdf_zero, norm_pdf_zero]
  rw [min_eq_left (by norm_num : (1.0:ℝ) - 1 / 2 ≤ 1.0 - 1e-12)]
  rw [show (1.0:ℝ) - 1 / 2 = 1 / 2 by norm_num]
  rw [max_eq_left (by norm_num : (1e-12:ℝ) ≤ 1 / 2)]
  ring

theorem sqrt_two_pi_mul_self :
    Real.sqrt (2 * Real.pi) * Real.sqrt (2 * Real.pi) = 2 * Real.pi :=
  Real.mul_self_sqrt (by nlinarith [Real.pi_pos])

theorem w_exceeds_zero : w_exceeds 0 = 2 / Real.pi := by
  unfold w_exceeds
  rw [v_exceeds_zero, add_zero, div_mul_div_comm, sqrt_two_pi_mul_self,
    show (2:ℝ) * 2 = 2 * 2 by norm_num, mul_div_mul_left _ _ (two_ne_zero)]

theorem w_exceeds_neg_zero : w_exceeds_neg 0 = 2 / Real.pi := by
  unfold w_exceeds_neg
  rw [v_exceeds_neg_zero, sub_zero, div_mul_div_comm, sqrt_two_pi_mul_self,
    show (2:ℝ) * 2 = 2 * 2 by norm_num, mul_div_mul_left _ _ (two_ne_zero)]

theorem TS_gap_zero :
    skillGapT ⟨TS_mu0, TS_sigma0⟩ ⟨TS_mu0, TS_sigma0⟩ TS_beta TS_tau = 0 := by
  unfold skillGapT
  simp

theorem TS_S : dynSigma TS_sigma0 TS_tau * dynSigma TS_sigma0 TS_tau = 10001 / 144 := by
  rw [dynSigma_mul_self]
  unfold TS_sigma0 TS_tau
  norm_num

theorem TS_C :
    combinedC2 (dynSigma TS_sigma0 TS_tau) (dynSigma TS_sigma0 TS_tau) TS_beta
      = 25002 / 144 := by
  unfold combinedC2
  rw [TS_S]
  unfold TS_beta
  norm_num

theorem TS_winnerVar :
    winnerVar ⟨TS_mu0, TS_sigma0⟩ ⟨TS_mu0, TS_sigma0⟩ TS_beta TS_tau
      = (10001 / 144) * (1 - (10001 / 25002) * (2 / Real.pi)) := by
  simp only [winnerVar]
  rw [TS_gap_zero, w_exceeds_zero, TS_S, TS_C]
  have h : ((10001:ℝ) / 144) / (25002 / 144) = 10001 / 25002 := by norm_num
  rw [h]
  norm_num

theorem TS_loserVar :
    loserVar ⟨TS_mu0, TS_sigma0⟩ ⟨TS_mu0, TS_sigma0⟩ TS_beta TS_tau
      = (10001 / 144) * (1 - (10001 / 25002) * (2 / Real.pi)) := by
  simp only [loserVar]
  rw [TS_gap_zero, w_exceeds_neg_zero, TS_S, TS_C]
  have h : ((10001:ℝ) / 144) / (25002 / 144) = 10001 / 25002 := by norm_num
  rw [h]
  norm_num

set_option maxHeartbeats 2000000 in
/-- C2: two fresh agents at the `TS_DEFAULTS` priors
(`mu0 = 25`, `sigma0 = 25/3 ≈ 8.333`, `beta = 25/6 ≈ 4.167`,
`tau = 25/300 ≈ 0.083`); after one win of A over B,
`mu_A ≈ 29.21`, `sigma_A ≈ 7.20`, `mu_B ≈ 20.79`, `sigma_B ≈ 7.20`,
each within `0.01`. -/
theorem C2_worked_example :
    |((apply_trueskill_win ⟨TS_mu0, TS_sigma0⟩ ⟨TS_mu0, TS_sigma0⟩ TS_beta TS_tau).1).mu
        - 29.21| < 0.01 ∧
    |((apply_trueskill_win ⟨TS_mu0, TS_sigma0⟩ ⟨TS_mu0, TS_sigma0⟩ TS_beta TS_tau).1).sigma
        - 7.20| < 0.01 ∧
    |((apply_trueskill_win ⟨TS_mu0, TS_sigma0⟩ ⟨TS_mu0, TS_sigma0⟩ TS_beta TS_tau).2).mu
        - 20.79| < 0.01 ∧
    |((apply_trueskill_win ⟨TS_mu0, TS_sigma0⟩ ⟨TS_mu0, TS_sigma0⟩ TS_beta TS_tau).2).sigma
        - 7.20| < 0.01 := by
  have hx1 : (2.5066:ℝ) < Real.sqrt (2 * Real.pi) :=
    (Real.lt_sqrt (by norm_num)).mpr (by nlinarith [Real.pi_gt_d6])
  have hx2 : Real.sqrt (2 * Real.pi) < 2.5067 :=
    (Real.sqrt_lt' (by norm_num)).mpr (by nlinarith [Real.pi_lt_d6])
  have hy1 : (13.17:ℝ) < Real.sqrt (25002 / 144) :=
    (Real.lt_sqrt (by norm_num)).mpr (by norm_num)
  have hy2 : Real.sqrt ((25002:ℝ) / 144) < 13.18 :=
    (Real.sqrt_lt' (by norm_num)).mpr (by norm_num)
  have hxpos : (0:ℝ) < Real.sqrt (2 * Real.pi) := lt_trans (by norm_num) hx1
  have hypos : (0:ℝ) < Real.sqrt ((25002:ℝ) / 144) := lt_trans (by norm_num) hy1
  have hyx1 : (33.01:ℝ) < Real.sqrt ((25002:ℝ) / 144) * Real.sqrt (2 * Real.pi) := by
    nlinarith [mul_lt_mul' hy1.le hx1 (by norm_num : (0:ℝ) ≤ 2.5066) hypos]
  have hyx2 : Real.sqrt ((25002:ℝ) / 144) * Real.sqrt (2 * Real.pi) < 33.04 := by
    nlinarith [mul_lt_mul' hy2.le hx2 hxpos.le (by norm_num : (0:ℝ) < 13.18)]
  have hyxpos : (0:ℝ) < Real.sqrt ((25002:ℝ) / 144) * Real.sqrt (2 * Real.pi) :=
    mul_pos hypos hxpos
  have hkey : ((10001:ℝ) / 144) / Real.sqrt ((25002:ℝ) / 144) * (2 / Real.sqrt (2 * Real.pi))
      = (20002 / 144) / (Real.sqrt ((25002:ℝ) / 144) * Real.sqrt (2 * Real.pi)) := by
    rw [div_mul_div_comm]
    congr 1
    norm_num
  have hq1 : ((20002:ℝ) / 144) / (Real.sqrt ((25002:ℝ) / 144) * Real.sqrt (2 * Real.pi))
      < (20002 / 144) / 33.01 :=
    div_lt_div_of_pos_left (by norm_num) (by norm_num) hyx1
  have hq2 : ((20002:ℝ) / 144) / 33.04
      < (20002 / 144) / (Real.sqrt ((25002:ℝ) / 144) * Real.sqrt (2 * Real.pi)) :=
    div_lt_div_of_pos_left (by norm_num) hyxpos hyx2
  have he1 : ((20002:ℝ) / 144) / 33.01 < 4.208 := by norm_num
  have he2 : (4.204:ℝ) < ((20002:ℝ) / 144) / 33.04 := by norm_num
  have hπpos := Real.pi_pos
  have hr : ((10001:ℝ) / 25002) * (2 / Real.pi) = (20002 / 25002) / Real.pi := by
    ring
  have hr1 : ((20002:ℝ) / 25002) / Real.pi < 0.2547 := by
    rw [div_lt_iff₀ hπpos]
    nlinarith [Real.pi_gt_d6]
  have hr2 : (0.2546:ℝ) < ((20002:ℝ) / 25002) / Real.pi := by
    rw [lt_div_iff₀ hπpos]
    nlinarith [Real.pi_lt_d6]
  have hW1 : (51.7:ℝ) < (10001 / 144) * (1 - (10001 / 25002) * (2 / Real.pi)) := by
    rw [hr]
    nlinarith [hr1]
  have hW2 : ((10001:ℝ) / 144) * (1 - (10001 / 25002) * (2 / Real.pi)) < 51.8 := by
    rw [hr]
    nlinarith [hr2]
  have hs719 : (7.19:ℝ) < Real.sqrt ((10001 / 144) * (1 - (10001 / 25002) * (2 / Real.pi))) :=
    (Real.lt_sqrt (by norm_num)).mpr (by nlinarith [hW1])
  have hs721 : Real.sqrt (((10001:ℝ) / 144) * (1 - (10001 / 25002) * (2 / Real.pi))) < 7.21 :=
    (Real.sqrt_lt' (by norm_num)).mpr (by nlinarith [hW2])
  have hmaxW : max (((10001:ℝ) / 144) * (1 - (10001 / 25002) * (2 / Real.pi))) 1e-6
      = (10001 / 144) * (1 - (10001 / 25002) * (2 / Real.pi)) :=
    max_eq_left (by nlinarith [hW1])
  have hmaxS : max (Real.sqrt (((10001:ℝ) / 144) * (1 - (10001 / 25002) * (2 / Real.pi)))) 1e-3
      = Real.sqrt (((10001:ℝ) / 144) * (1 - (10001 / 25002) * (2 / Real.pi))) :=
    max_eq_left (by nlinarith [hs719])
  refine ⟨?_, ?_, ?_, ?_⟩
  · have hmu : ((apply_trueskill_win ⟨TS_mu0, TS_sigma0⟩ ⟨TS_mu0, TS_sigma0⟩ TS_beta
        TS_tau).1).mu
        = 25 + (20002 / 144) / (Real.sqrt ((25002:ℝ) / 144) * Real.sqrt (2 * Real.pi)) := by
      simp only [apply_trueskill_win]
      rw [TS_gap_zero, v_exceeds_zero, TS_S, TS_C, hkey]
      unfold TS_mu0
      norm_num
    rw [hmu, abs_lt]
    constructor <;> nlinarith [hq1, hq2, he1, he2]
  · have hσ : ((apply_trueskill_win ⟨TS_mu0, TS_sigma0⟩ ⟨TS_mu0, TS_sigma0⟩ TS_beta
        TS_tau).1).sigma
        = Real.sqrt (((10001:ℝ) / 144) * (1 - (10001 / 25002) * (2 / Real.pi))) := by
      simp only [apply_trueskill_win]
      rw [TS_winnerVar, hmaxW, hmaxS]
    rw [hσ, abs_lt]
    constructor <;> nlinarith [hs719, hs721]
  · have hmu : ((apply_trueskill_win ⟨TS_mu0, TS_sigma0⟩ ⟨TS_mu0, TS_sigma0⟩ TS_beta
        TS_tau).2).mu
        = 25 - (20002 / 144) / (Real.sqrt ((25002:ℝ) / 144) * Real.sqrt (2 * Real.pi)) := by
      simp only [apply_trueskill_win]
      rw [TS_gap_zero, v_exceeds_neg_zero, TS_S, TS_C, hkey]
      unfold TS_mu0
      norm_num
    rw [hmu, abs_lt]
    constructor <;> nlinarith [hq1, hq2, he1, he2]
  · have hσ : ((apply_trueskill_win ⟨TS_mu0, TS_sigma0⟩ ⟨TS_mu0, TS_sigma0⟩ TS_beta
        TS_tau).2).sigma
        = Real.sqrt (((10001:ℝ) / 144) * (1 - (10001 / 25002) * (2 / Real.pi))) := by
      simp only [apply_trueskill_win]
      rw [TS_loserVar, hmaxW, hmaxS]
    rw [hσ, abs_lt]
    constructor <;> nlinarith [hs719, hs721]

/-! ## Uniform stationary distribution on a symmetric win matrix (C6) -/

theorem sum_ite_ne {n : ℕ} (i : Fin n) (c : ℝ) :
    ∑ b : Fin n, (if b ≠ i then c else 0) = ((n:ℝ) - 1) * c := by
  have hpt : ∀ b : Fin n, (if b ≠ i then c else 0) = c - (if b = i then c else 0) := by
    intro b
    by_cases hb : b = i <;> simp [hb]
  rw [Finset.sum_congr rfl (fun b _ => hpt b), Finset.sum_sub_distrib,
    Finset.sum_const, Finset.sum_ite_eq' Finset.univ i (fun _ => c),
    Finset.card_univ, Fintype.card_fin]
  simp [nsmul_eq_mul]
  ring

theorem profile_sum_expand {n : ℕ} (F : Fin n × Fin n → ℝ) :
    ∑ pr : Profile n, F pr.1
      = ∑ i : Fin n, ∑ j : Fin n, if i ≠ j then F (i, j) else 0 := by
  rw [← Finset.sum_subtype
    (Finset.univ.filter (fun x : Fin n × Fin n => x.1 ≠ x.2)) (by simp) F]
  rw [Finset.sum_filter, Fintype.sum_prod_type]

theorem card_Profile (n : ℕ) : Fintype.card (Profile n) = n * n - n := by
  rw [Fintype.card_subtype]
  have h : (Finset.univ.filter (fun x : Fin n × Fin n => x.1 ≠ x.2))
      = (Finset.univ : Finset (Fin n)).offDiag := by
    ext x
    simp [Finset.mem_offDiag]
  rw [h, Finset.offDiag_card, Finset.card_univ, Fintype.card_fin]

theorem keptWeight_devWeight_half (alpha mutation : ℝ) (hμ : 0 < mutation) :
    keptWeight (devWeight alpha mutation ((0.5:ℝ) - 0.5)) = mutation := by
  unfold keptWeight devWeight
  rw [if_pos (by norm_num : (0.5:ℝ) - 0.5 ≤ 0), if_pos hμ]

theorem entryWeight_half {n : ℕ} (alpha mutation : ℝ) (hμ : 0 < mutation)
    (src tgt : Profile n) :
    entryWeight (fun _ _ => (0.5:ℝ)) alpha mutation src tgt
      = if tgt = src then (1:ℝ) else if tgt.1.2 = src.1.2 then mutation
        else if tgt.1.1 = src.1.1 then mutation else 0 := by
  simp only [entryWeight]
  rw [keptWeight_devWeight_half alpha mutation hμ]
  norm_num

theorem entryWeight_half_symm {n : ℕ} (alpha mutation : ℝ) (hμ : 0 < mutation)
    (s t : Profile n) :
    entryWeight (fun _ _ => (0.5:ℝ)) alpha mutation s t
      = entryWeight (fun _ _ => (0.5:ℝ)) alpha mutation t s := by
  rw [entryWeight_half alpha mutation hμ, entryWeight_half alpha mutation hμ]
  by_cases h1 : t = s
  · simp [h1]
  · have h1' : ¬ s = t := fun h => h1 h.symm
    rw [if_neg h1, if_neg h1']
    by_cases h2 : t.1.2 = s.1.2
    · rw [if_pos h2, if_pos h2.symm]
    · have h2' : ¬ s.1.2 = t.1.2 := fun h => h2 h.symm
      rw [if_neg h2, if_neg h2']
      by_cases h3 : t.1.1 = s.1.1
      · rw [if_pos h3, if_pos h3.symm]
      · have h3' : ¬ s.1.1 = t.1.1 := fun h => h3 h.symm
        rw [if_neg h3, if_neg h3']

set_option maxHeartbeats 3200000 in
theorem entryWeight_half_row_sum {n : ℕ} (alpha mutation : ℝ) (hμ : 0 < mutation)
    (src : Profile n) :
    ∑ tgt, entryWeight (fun _ _ => (0.5:ℝ)) alpha mutation src tgt
      = 1 + 2 * ((n:ℝ) - 2) * mutation := by
  obtain ⟨⟨i, j⟩, hij0⟩ := src
  have hij : i ≠ j := hij0
  have hF : ∀ tgt : Profile n,
      entryWeight (fun _ _ => (0.5:ℝ)) alpha mutation ⟨(i, j), hij0⟩ tgt
        = if tgt.1 = (i, j) then (1:ℝ) else if tgt.1.2 = j then mutation
          else if tgt.1.1 = i then mutation else 0 := by
    intro tgt
    rw [entryWeight_half alpha mutation hμ]
    by_cases h1 : tgt = (⟨(i, j), hij0⟩ : Profile n)
    · rw [if_pos h1, if_pos (show tgt.1 = (i, j) by rw [h1])]
    · rw [if_neg h1, if_neg (show ¬ tgt.1 = (i, j) from fun h => h1 (Subtype.ext h))]
  rw [Finset.sum_congr rfl (fun t _ => hF t)]
  rw [profile_sum_expand (fun x : Fin n × Fin n => if x = (i, j) then (1:ℝ)
    else if x.2 = j then mutation else if x.1 = i then mutation else 0)]
  have hpt : ∀ a b : Fin n,
      (if a ≠ b then (if (a, b) = (i, j) then (1:ℝ)
          else if b = j then mutation else if a = i then mutation else 0) else 0)
        = (if a = i ∧ b ≠ i then mutation else 0)
          + (if b = j ∧ a ≠ j then mutation else 0)
          + (if (a, b) = (i, j) then 1 - 2 * mutation else 0) := by
    clear hF
    intro a b
    by_cases h1 : a = i <;> by_cases h2 : b = j <;> by_cases h3 : a = b <;>
      by_cases h4 : b = i <;> by_cases h5 : a = j <;>
        simp_all [Prod.ext_iff] <;> ring
  rw [Finset.sum_congr rfl (fun a _ => Finset.sum_congr rfl (fun b _ => hpt a b))]
  simp only [Finset.sum_add_distrib]
  have hT1 : (∑ a : Fin n, ∑ b : Fin n, if a = i ∧ b ≠ i then mutation else 0)
      = ((n:ℝ) - 1) * mutation := by
    have hinner : ∀ a : Fin n,
        (∑ b : Fin n, if a = i ∧ b ≠ i then mutation else 0)
          = if a = i then ((n:ℝ) - 1) * mutation else 0 := by
      intro a
      by_cases ha : a = i
      · rw [if_pos ha, ← sum_ite_ne i mutation]
        exact Finset.sum_congr rfl (fun b _ => by
          by_cases hb : b = i <;> simp [hb, ha])
      · rw [if_neg ha]
        have hz : ∀ b : Fin n, (if a = i ∧ b ≠ i then mutation else 0) = 0 :=
          fun b => if_neg (fun hc => ha hc.1)
        rw [Finset.sum_congr rfl (fun b _ => hz b), Finset.sum_const, smul_zero]
    rw [Finset.sum_congr rfl (fun a _ => hinner a),
      Finset.sum_ite_eq' Finset.univ i (fun _ => ((n:ℝ) - 1) * mutation)]
    simp
  have hT2 : (∑ a : Fin n, ∑ b : Fin n, if b = j ∧ a ≠ j then mutation else 0)
      = ((n:ℝ) - 1) * mutation := by
    have hinner : ∀ a : Fin n,
        (∑ b : Fin n, if b = j ∧ a ≠ j then mutation else 0)
          = if a ≠ j then mutation else 0 := by
      intro a
      by_cases ha : a = j
      · rw [if_neg (by simp [ha])]
        have hz : ∀ b : Fin n, (if b = j ∧ a ≠ j then mutation else 0) = 0 :=
          fun b => if_neg (fun hc => hc.2 ha)
        rw [Finset.sum_congr rfl (fun b _ => hz b), Finset.sum_const, smul_zero]
      · rw [if_pos ha]
        rw [Finset.sum_congr rfl (fun b _ => show
            (if b = j ∧ a ≠ j then mutation else 0) = if b = j then mutation else 0 by
          by_cases hb : b = j <;> simp [hb, ha])]
        rw [Finset.sum_ite_eq' Finset.univ j (fun _ => mutation)]
        simp
    rw [Finset.sum_congr rfl (fun a _ => hinner a), sum_ite_ne j mutation]
  have hT3 : (∑ a : Fin n, ∑ b : Fin n,
      if (a, b) = (i, j) then 1 - 2 * mutation else 0) = 1 - 2 * mutation := by
    have hinner : ∀ a : Fin n,
        (∑ b : Fin n, if (a, b) = (i, j) then 1 - 2 * mutation else 0)
          = if a = i then 1 - 2 * mutation else 0 := by
      intro a
      by_cases ha : a = i
      · rw [if_pos ha]
        rw [Finset.sum_congr rfl (fun b _ => show
            (if (a, b) = (i, j) then 1 - 2 * mutation else 0)
              = if b = j then 1 - 2 * mutation else 0 by
          by_cases hb : b = j <;> simp [hb, ha, Prod.ext_iff])]
        rw [Finset.sum_ite_eq' Finset.univ j (fun _ => 1 - 2 * mutation)]
        simp
      · rw [if_neg ha]
        have hz : ∀ b : Fin n,
            (if (a, b) = (i, j) then 1 - 2 * mutation else 0) = 0 :=
          fun b => if_neg (fun hc => ha (congrArg Prod.fst hc))
        rw [Finset.sum_congr rfl (fun b _ => hz b), Finset.sum_const, smul_zero]
    rw [Finset.sum_congr rfl (fun a _ => hinner a),
      Finset.sum_ite_eq' Finset.univ i (fun _ => 1 - 2 * mutation)]
    simp
  rw [hT1, hT2, hT3]
  ring

theorem entryWeight_half_col_sum {n : ℕ} (alpha mutation : ℝ) (hμ : 0 < mutation)
    (tgt : Profile n) :
    ∑ src, entryWeight (fun _ _ => (0.5:ℝ)) alpha mutation src tgt
      = 1 + 2 * ((n:ℝ) - 2) * mutation := by
  rw [Finset.sum_congr rfl
    (fun s _ => entryWeight_half_symm alpha mutation hμ s tgt)]
  exact entryWeight_half_row_sum alpha mutation hμ tgt

theorem totalWeight_half {n : ℕ} (alpha mutation : ℝ) (hμ : 0 < mutation)
    (src : Profile n) :
    totalWeight (fun _ _ => (0.5:ℝ)) alpha mutation src
      = 1 + 2 * ((n:ℝ) - 2) * mutation :=
  entryWeight_half_row_sum alpha mutation hμ src

theorem step_uniform {n : ℕ} (alpha mutation : ℝ) (hn : 2 ≤ n) (hμ : 0 < mutation) :
    powerIterStep (transProb (fun _ _ => (0.5:ℝ)) alpha mutation)
        (fun _ : Profile n => 1 / (Fintype.card (Profile n) : ℝ))
      = (fun _ => 1 / (Fintype.card (Profile n) : ℝ)) := by
  have hnr : (2:ℝ) ≤ (n:ℝ) := by exact_mod_cast hn
  have hK : (0:ℝ) < 1 + 2 * ((n:ℝ) - 2) * mutation := by nlinarith
  funext q
  show (∑ s : Profile n, (1 / (Fintype.card (Profile n) : ℝ))
      * transProb (fun _ _ => (0.5:ℝ)) alpha mutation s q)
    = 1 / (Fintype.card (Profile n) : ℝ)
  unfold transProb
  rw [Finset.sum_congr rfl (fun s _ => show
      (1 / (Fintype.card (Profile n) : ℝ))
          * (entryWeight (fun _ _ => (0.5:ℝ)) alpha mutation s q
            / totalWeight (fun _ _ => (0.5:ℝ)) alpha mutation s)
        = (1 / (Fintype.card (Profile n) : ℝ))
          * (entryWeight (fun _ _ => (0.5:ℝ)) alpha mutation s q
            / (1 + 2 * ((n:ℝ) - 2) * mutation)) by
    rw [totalWeight_half alpha mutation hμ s])]
  rw [← Finset.mul_sum, ← Finset.sum_div, entryWeight_half_col_sum alpha mutation hμ q,
    div_self hK.ne', mul_one]

set_option maxHeartbeats 2000000 in
theorem powerIter_uniform {n : ℕ} (alpha mutation : ℝ) (hn : 2 ≤ n)
    (hμ : 0 < mutation) (fuel : ℕ) :
    powerIter (transProb (fun _ _ => (0.5:ℝ)) alpha mutation) 1e-12 (fuel + 1)
        (fun _ : Profile n => 1 / (Fintype.card (Profile n) : ℝ))
      = (fun _ => 1 / (Fintype.card (Profile n) : ℝ)) := by
  have hcpos : (0:ℕ) < Fintype.card (Profile n) := by
    rw [card_Profile]
    have h4 : 2 * n ≤ n * n := Nat.mul_le_mul_right n hn
    omega
  have hcr : (0:ℝ) < (Fintype.card (Profile n) : ℝ) := by exact_mod_cast hcpos
  have hsumU : (∑ _q : Profile n, (1 / (Fintype.card (Profile n) : ℝ))) = 1 := by
    rw [Finset.sum_const, Finset.card_univ, nsmul_eq_mul]
    exact mul_one_div_cancel hcr.ne'
  simp only [powerIter, step_uniform alpha mutation hn hμ, hsumU, one_ne_zero,
    if_false, div_one, mul_one, sub_self, abs_zero, Finset.sum_const_zero]
  rw [if_pos (by norm_num : (0:ℝ) < 1e-12)]

theorem sum_fst_indicator {n : ℕ} (a : Fin n) :
    (∑ pr : Profile n, (if pr.1.1 = a then (1:ℝ) else 0)) = (n:ℝ) - 1 := by
  rw [profile_sum_expand (fun x : Fin n × Fin n => if x.1 = a then (1:ℝ) else 0)]
  have hinner : ∀ i : Fin n,
      (∑ j : Fin n, if i ≠ j then (if i = a then (1:ℝ) else 0) else 0)
        = if i = a then (n:ℝ) - 1 else 0 := by
    intro i
    by_cases hi : i = a
    · rw [if_pos hi, if_pos hi]
      rw [Finset.sum_congr rfl (fun j _ => show
          (if i ≠ j then (1:ℝ) else 0) = if j ≠ i then (1:ℝ) else 0 from by
        by_cases hj : j = i
        · simp [hj]
        · simp [hj, show i ≠ j from fun h => hj h.symm])]
      rw [sum_ite_ne i (1:ℝ), mul_one]
    · rw [if_neg hi, if_neg hi]
      simp
  rw [Finset.sum_congr rfl (fun i _ => hinner i),
    Finset.sum_ite_eq' Finset.univ a (fun _ => (n:ℝ) - 1)]
  simp

theorem sum_snd_indicator {n : ℕ} (a : Fin n) :
    (∑ pr : Profile n, (if pr.1.2 = a then (1:ℝ) else 0)) = (n:ℝ) - 1 := by
  rw [profile_sum_expand (fun x : Fin n × Fin n => if x.2 = a then (1:ℝ) else 0)]
  have hinner : ∀ i : Fin n,
      (∑ j : Fin n, if i ≠ j then (if j = a then (1:ℝ) else 0) else 0)
        = if i ≠ a then (1:ℝ) else 0 := by
    intro i
    by_cases hi : i = a
    · rw [if_neg (by simp [hi])]
      rw [Finset.sum_congr rfl (fun j _ => show
          (if i ≠ j then (if j = a then (1:ℝ) else 0) else 0) = 0 by
        by_cases hj : j = a
        · simp [hj, hi]
        · simp [hj])]
      rw [Finset.sum_const, smul_zero]
    · rw [if_pos hi]
      rw [Finset.sum_congr rfl (fun j _ => show
          (if i ≠ j then (if j = a then (1:ℝ) else 0) else 0)
            = if j = a then (1:ℝ) else 0 by
        by_cases hj : j = a
        · simp [hj, hi]
        · simp [hj])]
      rw [Finset.sum_ite_eq' Finset.univ a (fun _ => (1:ℝ))]
      simp
  rw [Finset.sum_congr rfl (fun i _ => hinner i), sum_ite_ne a (1:ℝ), mul_one]

theorem card_Profile_pos {n : ℕ} (hn : 2 ≤ n) :
    (0:ℝ) < (Fintype.card (Profile n) : ℝ) := by
  have hcpos : (0:ℕ) < Fintype.card (Profile n) := by
    rw [card_Profile]
    have h4 : 2 * n ≤ n * n := Nat.mul_le_mul_right n hn
    omega
  exact_mod_cast hcpos

set_option maxHeartbeats 2000000 in
theorem agentMass_half {n : ℕ} (alpha mutation : ℝ) (hn : 2 ≤ n) (hμ : 0 < mutation)
    (b : Fin n) :
    agentMass n (fun _ _ => (0.5:ℝ)) alpha mutation b
      = ((n:ℝ) - 1) / (Fintype.card (Profile n) : ℝ) := by
  have hstat : stationary_distribution (transProb (fun _ _ => (0.5:ℝ)) alpha mutation)
      = (fun _ : Profile n => 1 / (Fintype.card (Profile n) : ℝ)) := by
    unfold stationary_distribution
    exact powerIter_uniform alpha mutation hn hμ 19999
  unfold agentMass
  rw [hstat]
  show (∑ pr : Profile n, (1 / (Fintype.card (Profile n) : ℝ)) * 0.5
      * ((if pr.1.1 = b then (1:ℝ) else 0) + (if pr.1.2 = b then (1:ℝ) else 0)))
    = ((n:ℝ) - 1) / (Fintype.card (Profile n) : ℝ)
  rw [← Finset.mul_sum, Finset.sum_add_distrib, sum_fst_indicator b, sum_snd_indicator b]
  have hcr := card_Profile_pos hn
  field_simp
  ring

/-- C6: on the fully symmetric win-rate matrix `p[i][j] = 0.5`, for every
`n ≥ 2`, every `alpha` and every `mutation > 0`, the AlphaRank mass of every
agent is exactly `1/n` (the power iteration stays at the uniform
distribution and converges on its first iteration, within the source's
tolerance). -/
theorem C6_symmetric_matrix_uniform_mass (n : ℕ) (alpha mutation : ℝ)
    (hn : 2 ≤ n) (hμ : 0 < mutation) (a : Fin n) :
    alpharank_scores n (fun _ _ => (0.5:ℝ)) alpha mutation a = 1 / (n:ℝ) := by
  have hnr : (2:ℝ) ≤ (n:ℝ) := by exact_mod_cast hn
  have hcard : (Fintype.card (Profile n) : ℝ) = (n:ℝ) * (n:ℝ) - (n:ℝ) := by
    rw [card_Profile, Nat.cast_sub (Nat.le_mul_of_pos_left n (by omega))]
    push_cast
    rfl
  have hsum : (∑ b : Fin n, agentMass n (fun _ _ => (0.5:ℝ)) alpha mutation b) = 1 := by
    rw [Finset.sum_congr rfl (fun b _ => agentMass_half alpha mutation hn hμ b),
      Finset.sum_const, Finset.card_univ, Fintype.card_fin, nsmul_eq_mul, hcard]
    have hd : ((n:ℝ) * (n:ℝ) - (n:ℝ)) ≠ 0 := ne_of_gt (by nlinarith)
    field_simp
    ring
  simp only [alpharank_scores]
  rw [hsum, if_pos one_pos]
  show agentMass n (fun _ _ => (0.5:ℝ)) alpha mutation a / 1 = 1 / (n:ℝ)
  rw [div_one, agentMass_half alpha mutation hn hμ a, hcard]
  rw [div_eq_div_iff (ne_of_gt (by nlinarith : (0:ℝ) < (n:ℝ) * (n:ℝ) - (n:ℝ)))
    (ne_of_gt (by nlinarith : (0:ℝ) < (n:ℝ)))]
  ring

/-- Witness for C6 at `n = 2`, `alpha = 1`, `mutation = 1`, agent `0`. -/
theorem C6_symmetric_matrix_uniform_mass_witness :
    ((2:ℕ) ≤ 2 ∧ (0:ℝ) < 1) ∧
    alpharank_scores 2 (fun _ _ => (0.5:ℝ)) 1 1 0 = 1 / ((2:ℕ):ℝ) :=
  ⟨⟨le_refl 2, one_pos⟩, C6_symmetric_matrix_uniform_mass 2 1 1 (le_refl 2) one_pos 0⟩
